/-
  Verification of the design-review-assistant core
  (src/app.py and src/index.py) against its specification.

  Shallow embedding notes:
  * Python/JSON values are modelled by `Val` (strings, integers, booleans,
    None, and string-keyed dicts).  JSON floats do not occur in any claim
    and are not modelled.
  * Python exceptions are modelled with `Except PyErr`; `TypeError` and
    `ValueError` are the two exception classes the core can raise.
  * Python dicts are modelled as insertion-ordered association lists;
    assignment (`d[k] = v`) keeps the position of an existing key and
    appends new keys, exactly like CPython dicts.
  * The three regular expressions used by the source
    (`(\w+)="([^"]+)"`, `style=\{\{([^}]+)\}\}`, `(\w+):\s*([^,}]+)` and
    `var\(--(?:color-)?([^)]+)\)`) are modelled by direct left-to-right
    scanners that implement exactly the leftmost-match-with-backtracking
    behaviour those patterns have in Python's `re` module; `\w` and `\s`
    are modelled over ASCII.
  * Python `int(...)` string parsing is modelled by `pyInt?` (optional
    surrounding whitespace, optional sign, digits with single underscores
    between digits).  Digit classification is modelled exactly: `ndRanges`
    lists every non-ASCII Unicode decimal-digit block (`Numeric_Type =
    Decimal`, the characters `int` accepts) and `digitOnlyRanges` every
    `Numeric_Type = Digit` character (accepted by `str.isdigit` but
    rejected by `int`, e.g. superscript two), per Unicode 14.0.0.
-/
import Mathlib

set_option maxRecDepth 4096

/-- Exception classes raised by the modelled code. -/
inductive PyErr where
  | typeError
  | valueError
deriving Repr, DecidableEq

/-- A Python/JSON value as used by the core: strings, ints, booleans,
None, and string-keyed dictionaries. -/
inductive Val where
  | str (s : String)
  | int (n : Int)
  | bool (b : Bool)
  | none
  | dict (d : List (String × Val))
deriving Repr

namespace Py

/-- Python truthiness (`if not x`) for the modelled values. -/
def truthy : Val → Bool
  | .str s => !(s.data.isEmpty)
  | .int n => n != 0
  | .bool b => b
  | .none => false
  | .dict d => !d.isEmpty

/-- Python `is True` (identity with the boolean singleton). -/
def isTrueLiteral : Val → Bool
  | .bool b => b
  | _ => false

mutual

/-- Size of a value; `vsize v` strictly exceeds the dict-nesting depth
of `v`, so it is a sufficient fuel for `pyEqFuel`. -/
def vsize : Val → Nat
  | .dict d => 1 + lsize d
  | _ => 1

def lsize : List (String × Val) → Nat
  | [] => 0
  | (_, v) :: rest => vsize v + lsize rest

end

/-- Python `==` with an explicit recursion bound on dict nesting.
Booleans compare equal to the integers 0/1 (bool is an int subclass);
dicts compare as unordered key-value collections (same size, every key
of the left dict present in the right with an equal value); values of
different classes otherwise compare unequal. -/
def pyEqFuel : Nat → Val → Val → Bool
  | _, .str a, .str b => a == b
  | _, .int a, .int b => a == b
  | _, .bool a, .bool b => a == b
  | _, .int a, .bool b => a == (if b then (1 : Int) else 0)
  | _, .bool a, .int b => (if a then (1 : Int) else 0) == b
  | _, .none, .none => true
  | fuel + 1, .dict a, .dict b =>
    a.length == b.length &&
    a.all (fun kv =>
      match b.find? (fun kw => kw.1 == kv.1) with
      | some kw => pyEqFuel fuel kv.2 kw.2
      | Option.none => false)
  | 0, .dict _, .dict _ => false
  | _, _, _ => false

/-- Python `==` on the modelled values.  The recursion bound `vsize a`
strictly exceeds the dict-nesting depth of `a`, so the zero-fuel arm of
`pyEqFuel` is unreachable. -/
def pyEq (a b : Val) : Bool :=
  pyEqFuel (vsize a) a b

/-- Python dict lookup `d.get(k)` as an `Option`. -/
def dictLookup : List (String × Val) → String → Option Val
  | [], _ => Option.none
  | (k2, v) :: rest, k => if k2 == k then some v else dictLookup rest k

/-- Python `d.get(k)`: `None` when the key is absent. -/
def getVal (d : List (String × Val)) (k : String) : Val :=
  match dictLookup d k with
  | some v => v
  | Option.none => Val.none

/-- Python dict assignment `d[k] = v`: updates an existing key in place
(keeping its position) or appends a new one. -/
def dictInsert : List (String × Val) → String → Val → List (String × Val)
  | [], k, v => [(k, v)]
  | (k2, v2) :: rest, k, v =>
    if k2 == k then (k2, v) :: rest else (k2, v2) :: dictInsert rest k v

/-- Is `l1` a contiguous infix of `l2`?  (The empty list is an infix of
everything, matching Python's `'' in s`.) -/
def listInfix (l1 : List Char) : List Char → Bool
  | [] => l1.isEmpty
  | c :: rest => l1.isPrefixOf (c :: rest) || listInfix l1 rest

/-- Substring containment, Python `needle in haystack` on strings. -/
def inStr (needle haystack : String) : Bool :=
  listInfix needle.data haystack.data

/-- Python `s.endswith(t)`. -/
def strEndsWith (s t : String) : Bool :=
  t.data.isSuffixOf s.data

/-- Python `s.startswith(t)`. -/
def strStartsWith (s t : String) : Bool :=
  t.data.isPrefixOf s.data

/-- Python `c in s` for a single character. -/
def charIn (c : Char) (s : String) : Bool :=
  s.data.contains c

/-- ASCII whitespace, the characters matched by `\s` (and stripped by
`str.strip()`) restricted to ASCII. -/
def isWs (c : Char) : Bool :=
  c == ' ' || c == '\t' || c == '\n' || c == '\r' || c == '\x0b' || c == '\x0c'

/-- `\w`: ASCII word characters. -/
def isWordChar (c : Char) : Bool :=
  c.isAlphanum || c == '_'

/-- The non-ASCII Unicode decimal-digit blocks (`Numeric_Type=Decimal`):
every run is ten consecutive codepoints holding the digits 0-9 in order,
so the digit's value is the offset from the run start.  These are
exactly the characters Python's `int(...)` accepts as digits. -/
def ndRanges : List (Nat × Nat) :=
  [(0x660, 0x669), (0x6F0, 0x6F9), (0x7C0, 0x7C9), (0x966, 0x96F),
   (0x9E6, 0x9EF), (0xA66, 0xA6F), (0xAE6, 0xAEF), (0xB66, 0xB6F),
   (0xBE6, 0xBEF), (0xC66, 0xC6F), (0xCE6, 0xCEF), (0xD66, 0xD6F),
   (0xDE6, 0xDEF), (0xE50, 0xE59), (0xED0, 0xED9), (0xF20, 0xF29),
   (0x1040, 0x1049), (0x1090, 0x1099), (0x17E0, 0x17E9), (0x1810, 0x1819),
   (0x1946, 0x194F), (0x19D0, 0x19D9), (0x1A80, 0x1A89), (0x1A90, 0x1A99),
   (0x1B50, 0x1B59), (0x1BB0, 0x1BB9), (0x1C40, 0x1C49), (0x1C50, 0x1C59),
   (0xA620, 0xA629), (0xA8D0, 0xA8D9), (0xA900, 0xA909), (0xA9D0, 0xA9D9),
   (0xA9F0, 0xA9F9), (0xAA50, 0xAA59), (0xABF0, 0xABF9), (0xFF10, 0xFF19),
   (0x104A0, 0x104A9), (0x10D30, 0x10D39), (0x11066, 0x1106F), (0x110F0, 0x110F9),
   (0x11136, 0x1113F), (0x111D0, 0x111D9), (0x112F0, 0x112F9), (0x11450, 0x11459),
   (0x114D0, 0x114D9), (0x11650, 0x11659), (0x116C0, 0x116C9), (0x11730, 0x11739),
   (0x118E0, 0x118E9), (0x11950, 0x11959), (0x11C50, 0x11C59), (0x11D50, 0x11D59),
   (0x11DA0, 0x11DA9), (0x16A60, 0x16A69), (0x16AC0, 0x16AC9), (0x16B50, 0x16B59),
   (0x1D7CE, 0x1D7D7), (0x1D7D8, 0x1D7E1), (0x1D7E2, 0x1D7EB), (0x1D7EC, 0x1D7F5),
   (0x1D7F6, 0x1D7FF), (0x1E140, 0x1E149), (0x1E2F0, 0x1E2F9), (0x1E950, 0x1E959),
   (0x1FBF0, 0x1FBF9)]

/-- The `Numeric_Type=Digit` characters: accepted by `str.isdigit()` but
rejected by `int(...)` (superscripts, subscripts, circled digits, ...). -/
def digitOnlyRanges : List (Nat × Nat) :=
  [(0xB2, 0xB3), (0xB9, 0xB9), (0x1369, 0x1371), (0x19DA, 0x19DA),
   (0x2070, 0x2070), (0x2074, 0x2079), (0x2080, 0x2089), (0x2460, 0x2468),
   (0x2474, 0x247C), (0x2488, 0x2490), (0x24EA, 0x24EA), (0x24F5, 0x24FD),
   (0x24FF, 0x24FF), (0x2776, 0x277E), (0x2780, 0x2788), (0x278A, 0x2792),
   (0x10A40, 0x10A43), (0x10E60, 0x10E68), (0x11052, 0x1105A), (0x1F100, 0x1F10A)]

/-- The decimal value of a character as `int(...)` sees it: ASCII `0`-`9`
or a digit from one of the Unicode decimal blocks. -/
def decDigitVal? (c : Char) : Option Nat :=
  if 48 ≤ c.toNat && c.toNat ≤ 57 then some (c.toNat - 48)
  else
    match ndRanges.find? (fun r => r.1 ≤ c.toNat && c.toNat ≤ r.2) with
    | some r => some (c.toNat - r.1)
    | Option.none => Option.none

/-- A character `str.isdigit()` accepts: decimal digits plus the
digit-only characters. -/
def pyDigitChar (c : Char) : Bool :=
  (decDigitVal? c).isSome || digitOnlyRanges.any (fun r => r.1 ≤ c.toNat && c.toNat ≤ r.2)

/-- Python `str.isdigit()`: nonempty and every character a digit
(decimal or digit-only — so e.g. a superscript two satisfies it even
though `int` rejects it). -/
def pyIsDigit (s : String) : Bool :=
  !s.data.isEmpty && s.data.all pyDigitChar

/-- Drop the characters satisfying `p` from both ends. -/
def stripWhile (p : Char → Bool) (cs : List Char) : List Char :=
  ((cs.dropWhile p).reverse.dropWhile p).reverse

/-- Python `s.strip()` (ASCII whitespace). -/
def pyStrip (s : String) : String :=
  ⟨stripWhile isWs s.data⟩

/-- Python `s.strip(chars)` for the quote characters, i.e. the
`.strip('"\x27')` calls of the source. -/
def stripQuotes (s : String) : String :=
  ⟨stripWhile (fun c => c == '"' || c == '\x27') s.data⟩

/-- One step of Python digit parsing: decimal digits, with a single
underscore allowed between two digits.  Digit-only characters (e.g.
superscript two) are not decimal digits, so `int` fails on them. -/
def pyDigitsAux : List Char → Nat → Option Nat
  | [], acc => some acc
  | [c], acc =>
    match decDigitVal? c with
    | some v => some (acc * 10 + v)
    | Option.none => Option.none
  | c :: c2 :: rest, acc =>
    match decDigitVal? c with
    | some v => pyDigitsAux (c2 :: rest) (acc * 10 + v)
    | Option.none =>
      if c == '_' then
        match decDigitVal? c2 with
        | some v2 => pyDigitsAux rest (acc * 10 + v2)
        | Option.none => Option.none
      else Option.none

/-- Parse a nonempty decimal-digit sequence (with Python's underscore
rule). -/
def pyDigits : List Char → Option Nat
  | [] => Option.none
  | c :: rest =>
    match decDigitVal? c with
    | some v => pyDigitsAux rest v
    | Option.none => Option.none

/-- Python `int(s)`: optional surrounding whitespace, optional sign,
digits (single underscores between digits allowed).  `Option.none`
models the `ValueError` that `int` raises on anything else. -/
def pyInt? (s : String) : Option Int :=
  match stripWhile isWs s.data with
  | [] => Option.none
  | c :: rest =>
    if c == '-' then (pyDigits rest).map (fun n => -(n : Int))
    else if c == '+' then (pyDigits rest).map (fun n => (n : Int))
    else (pyDigits (c :: rest)).map (fun n => (n : Int))

/-- The number denoted by a digit string, most significant digit first. -/
def digitVal (cs : List Char) : Nat :=
  cs.foldl (fun a c => a * 10 + (c.toNat - 48)) 0

/-- Hashable Python values: everything the model covers except dicts. -/
def hashable : Val → Bool
  | .dict _ => false
  | _ => true

/-- Replace every (non-overlapping, leftmost-first) occurrence of the
nonempty pattern `p :: pat` in the scanned list with `rep`: the scan of
Python `s.replace(pat, rep)`.  The `fuel` argument (initialised to the
list length) only bounds the recursion; every step consumes at least one
character, so the zero-fuel arm is unreachable. -/
def replaceAux (p : Char) (pat rep : List Char) : Nat → List Char → List Char
  | _, [] => []
  | 0, _ :: _ => []
  | fuel + 1, c :: rest =>
    if (p :: pat).isPrefixOf (c :: rest) then
      rep ++ replaceAux p pat rep fuel ((c :: rest).drop (p :: pat).length)
    else
      c :: replaceAux p pat rep fuel rest

/-- Python `s.replace(pat, rep)`.  The source only calls `replace` with
the nonempty pattern `"px"`; an empty pattern is treated as identity. -/
def pyReplace (s pat rep : String) : String :=
  match pat.data with
  | [] => s
  | p :: ps => ⟨replaceAux p ps rep.data s.data.length s.data⟩

/-- Grab the `([^)]+)\)` tail of the CSS-variable pattern: a nonempty run
of non-`)` characters followed by `)`. -/
def cssVarGrab (cs : List Char) : Option String :=
  let run := cs.takeWhile (fun c => c != ')')
  if run.isEmpty then Option.none
  else if run.length < cs.length then some ⟨run⟩
  else Option.none

/-- Match `var\(--(?:color-)?([^)]+)\)` anchored at the start of `cs`,
with the greedy-optional `color-` group and its backtracking. -/
def cssVarAt (cs : List Char) : Option String :=
  if "var(--".data.isPrefixOf cs then
    let rest := cs.drop 6
    match (if "color-".data.isPrefixOf rest then cssVarGrab (rest.drop 6) else Option.none) with
    | some r => some r
    | Option.none => cssVarGrab rest
  else Option.none

/-- Leftmost-position scan implementing `re.search` for the CSS-variable
pattern. -/
def searchCssVarAux : List Char → Option String
  | [] => Option.none
  | cs@(_ :: rest) =>
    match cssVarAt cs with
    | some r => some r
    | Option.none => searchCssVarAux rest

/-- `re.search(r'var\(--(?:color-)?([^)]+)\)', s)`, returning group 1. -/
def searchCssVar (s : String) : Option String :=
  searchCssVarAux s.data

/-- Match `(\w+)="([^"]+)"` anchored at the start of `cs`; on success
return the two groups and the characters after the match. -/
def attrAt (cs : List Char) : Option (String × String × List Char) :=
  let w := cs.takeWhile isWordChar
  match cs.drop w.length with
  | '=' :: '"' :: rest =>
    let v := rest.takeWhile (fun c => c != '"')
    if w.isEmpty || v.isEmpty || !(v.length < rest.length) then Option.none
    else some (⟨w⟩, ⟨v⟩, rest.drop (v.length + 1))
  | _ => Option.none

/-- `re.findall(r'(\w+)="([^"]+)"', s)`: scan left to right, emitting
non-overlapping matches and resuming after each match.  By
`attrAt_length` each step consumes at least one character, so a fuel of
the list length makes the zero-fuel arm unreachable. -/
def findAttrsAux : Nat → List Char → List (String × String)
  | _, [] => []
  | 0, _ :: _ => []
  | fuel + 1, c :: rest =>
    match attrAt (c :: rest) with
    | some kvr => (kvr.1, kvr.2.1) :: findAttrsAux fuel kvr.2.2
    | Option.none => findAttrsAux fuel rest

def findAttrs (s : String) : List (String × String) :=
  findAttrsAux s.data.length s.data

/-- The literal opening of the style-block pattern, `style={{`. -/
def styleOpen : List Char := "style=".data ++ ['\x7b', '\x7b']

/-- Match `style=\{\{([^}]+)\}\}` anchored at the start of `cs`. -/
def styleAt (cs : List Char) : Option String :=
  if styleOpen.isPrefixOf cs then
    let inner := cs.drop styleOpen.length
    let run := inner.takeWhile (fun c => c != '\x7d')
    if run.isEmpty then Option.none
    else
      match inner.drop run.length with
      | '\x7d' :: '\x7d' :: _ => some ⟨run⟩
      | _ => Option.none
  else Option.none

/-- `re.search` for the style-block pattern: leftmost match wins. -/
def findStyleAux : List Char → Option String
  | [] => Option.none
  | cs@(_ :: rest) =>
    match styleAt cs with
    | some r => some r
    | Option.none => findStyleAux rest

def findStyleBlock (s : String) : Option String :=
  findStyleAux s.data

/-- Match `(\w+):\s*([^,}]+)` anchored at the start of `cs`.  When the
run after the whitespace is empty the regex engine backtracks `\s*` by
one character, so group 2 becomes that single whitespace character. -/
def cssAt (cs : List Char) : Option (String × String × List Char) :=
  let w := cs.takeWhile isWordChar
  match cs.drop w.length with
  | ':' :: rest =>
    let ws := rest.takeWhile isWs
    let body := rest.drop ws.length
    let run := body.takeWhile (fun c => c != ',' && c != '\x7d')
    if w.isEmpty then Option.none
    else if !run.isEmpty then some (⟨w⟩, ⟨run⟩, body.drop run.length)
    else
      match ws.getLast? with
      | some wc => some (⟨w⟩, ⟨[wc]⟩, body)
      | Option.none => Option.none
  | _ => Option.none

/-- `re.findall(r'(\w+):\s*([^,}]+)', s)`; by `cssAt_length` the fuel
(initialised to the list length) makes the zero-fuel arm unreachable. -/
def findCssAux : Nat → List Char → List (String × String)
  | _, [] => []
  | 0, _ :: _ => []
  | fuel + 1, c :: rest =>
    match cssAt (c :: rest) with
    | some kvr => (kvr.1, kvr.2.1) :: findCssAux fuel kvr.2.2
    | Option.none => findCssAux fuel rest

def findCssProps (s : String) : List (String × String) :=
  findCssAux s.data.length s.data

/-- Python `x is not None` is false exactly on the `None` value. -/
def isNoneV : Val → Bool
  | .none => true
  | _ => false

/-- Python subtraction as used by the comparator; booleans take part as
0/1 (bool is an int subclass), anything else raises `TypeError`. -/
def pySub : Val → Val → Except PyErr Int
  | .int a, .int b => .ok (a - b)
  | .int a, .bool b => .ok (a - (if b then 1 else 0))
  | .bool a, .int b => .ok ((if a then 1 else 0) - b)
  | .bool a, .bool b => .ok ((if a then 1 else 0) - (if b then (1 : Int) else 0))
  | _, _ => .error .typeError

mutual

/-- Python `str(v)` as used by f-string interpolation. -/
def pyToString : Val → String
  | .str s => s
  | .int n => toString n
  | .bool b => if b then "True" else "False"
  | .none => "None"
  | .dict d => "\x7b" ++ pyReprFields d ++ "\x7d"

/-- Python `repr(v)` for values nested inside a dict being stringified.
Escaping of special characters inside string literals is not modelled
(no claim depends on it). -/
def pyRepr : Val → String
  | .str s => "\x27" ++ s ++ "\x27"
  | .int n => toString n
  | .bool b => if b then "True" else "False"
  | .none => "None"
  | .dict d => "\x7b" ++ pyReprFields d ++ "\x7d"

def pyReprFields : List (String × Val) → String
  | [] => ""
  | [(k, v)] => "\x27" ++ k ++ "\x27: " ++ pyRepr v
  | (k, v) :: rest => "\x27" ++ k ++ "\x27: " ++ pyRepr v ++ ", " ++ pyReprFields rest

end

/-- Python `x in tokens` (dict key membership).  Dicts are unhashable,
so using one as a lookup key raises `TypeError`. -/
def valInTokens (tokens : List (String × Val)) : Val → Except PyErr Bool
  | .dict _ => .error .typeError
  | v => .ok (tokens.any (fun kv => pyEq (.str kv.1) v))

/-- `tokens[x]`; only evaluated by the source after a membership check. -/
def tokensGet (tokens : List (String × Val)) (v : Val) : Val :=
  match tokens.find? (fun kv => pyEq (.str kv.1) v) with
  | some kv => kv.2
  | Option.none => Val.none

end Py

/-- An issue record emitted by `compare_components`. -/
structure Issue where
  severity : String
  property : String
  figma : Val
  pr : Val
  recommendation : String
  category : String
deriving Repr

/-! ## The core of `src/app.py` -/

namespace App

/-- `parse_property_value` (src/app.py lines 10-41).  The CSS-variable
`re.search` runs before any `isinstance` guard, so a non-string input
raises `TypeError`. -/
def parse_property_value : Val → Except PyErr Val
  | .str value =>
    match Py.searchCssVar value with
    | some token_name => .ok (.dict [("token", .str token_name), ("value", .str token_name)])
    | Option.none =>
      if Py.strEndsWith value "px" then
        if Py.charIn ' ' value then .ok (.dict [("value", .str value)])
        else
          match Py.pyInt? (Py.pyReplace value "px" "") with
          | some n => .ok (.dict [("value", .str value), ("normalized", .int n)])
          | Option.none => .ok (.dict [("value", .str value)])
      else if Py.strEndsWith value "%" then
        .ok (.dict [("value", .str value), ("type", .str "percentage")])
      else if Py.pyIsDigit value then
        match Py.pyInt? value with
        | some n => .ok (.dict [("value", .str value), ("normalized", .int n)])
        | Option.none => .error .valueError
      else if Py.charIn '-' value && !(Py.strStartsWith value "var(") then
        .ok (.dict [("token", .str value), ("value", .str value)])
      else .ok (.dict [("value", .str value)])
  | _ => .error .typeError

/-- `map_css_property_name` (src/app.py lines 72-85). -/
def map_css_property_name (css_prop : String) : String :=
  (([("color", "textColor"), ("background", "backgroundColor"),
     ("backgroundColor", "backgroundColor"), ("fontSize", "fontSize"),
     ("fontWeight", "fontWeight"), ("fontFamily", "fontFamily"),
     ("borderRadius", "borderRadius"), ("padding", "padding"),
     ("lineHeight", "lineHeight")] : List (String × String)).lookup css_prop).getD css_prop

/-- The attribute loop of `parse_jsx_props`: `props[key] = parse(...)`
for every `key="value"` match except `style`. -/
def attrFold : List (String × String) → List (String × Val) → Except PyErr (List (String × Val))
  | [], props => .ok props
  | (key, value) :: rest, props =>
    if key == "style" then attrFold rest props
    else
      match parse_property_value (.str value) with
      | .error e => .error e
      | .ok pv => attrFold rest (Py.dictInsert props key pv)

/-- The style loop of `parse_jsx_props`: clean each value, map the CSS
name, parse, and assign. -/
def styleFold : List (String × String) → List (String × Val) → Except PyErr (List (String × Val))
  | [], props => .ok props
  | (css_key, css_value) :: rest, props =>
    match parse_property_value (.str (Py.stripQuotes (Py.pyStrip css_value))) with
    | .error e => .error e
    | .ok pv => styleFold rest (Py.dictInsert props (map_css_property_name css_key) pv)

/-- `parse_jsx_props` (src/app.py lines 43-70): attribute matches first,
then the entries of the (first) inline style block. -/
def parse_jsx_props (jsx_content : String) : Except PyErr (List (String × Val)) :=
  match attrFold (Py.findAttrs jsx_content) [] with
  | .error e => .error e
  | .ok props =>
    match Py.findStyleBlock jsx_content with
    | Option.none => .ok props
    | some style_content => styleFold (Py.findCssProps style_content) props

/-- The structured-descriptor `else` branch of `resolve_tokens`
(src/app.py lines 102-109): copy the dict, then resolve through the
token field, or else through the value field. -/
def resolveDict (tokens : List (String × Val)) (d : List (String × Val)) :
    Except PyErr (List (String × Val)) :=
  match Py.dictLookup d "token" with
  | some tv =>
    match Py.valInTokens tokens tv with
    | .error e => .error e
    | .ok true => .ok (Py.dictInsert d "resolved" (Py.tokensGet tokens tv))
    | .ok false =>
      match Py.dictLookup d "value" with
      | some vv =>
        match Py.valInTokens tokens vv with
        | .error e => .error e
        | .ok true =>
          .ok (Py.dictInsert (Py.dictInsert d "resolved" (Py.tokensGet tokens vv)) "token" vv)
        | .ok false => .ok d
      | Option.none => .ok d
  | Option.none =>
    match Py.dictLookup d "value" with
    | some vv =>
      match Py.valInTokens tokens vv with
      | .error e => .error e
      | .ok true =>
        .ok (Py.dictInsert (Py.dictInsert d "resolved" (Py.tokensGet tokens vv)) "token" vv)
      | .ok false => .ok d
    | Option.none => .ok d

/-- Resolution of a single stored value (the body of the `resolve_tokens`
loop, src/app.py lines 91-109).  Note the raw-string pixel branch calls
`int(...)` without a `try`, so an unparsable digit part raises
`ValueError`. -/
def resolveVal (tokens : List (String × Val)) : Val → Except PyErr Val
  | .dict d =>
    match resolveDict tokens d with
    | .error e => .error e
    | .ok r => .ok (.dict r)
  | .str s =>
    match Py.valInTokens tokens (.str s) with
    | .error e => .error e
    | .ok true =>
      .ok (.dict [("token", .str s), ("value", .str s), ("resolved", Py.tokensGet tokens (.str s))])
    | .ok false =>
      if Py.strEndsWith s "px" && !(Py.charIn ' ' s) then
        match Py.pyInt? (Py.pyReplace s "px" "") with
        | some n => .ok (.dict [("value", .str s), ("normalized", .int n)])
        | Option.none => .error .valueError
      else .ok (.dict [("value", .str s)])
  | prop => .ok (.dict [("value", prop)])

/-- The `resolve_tokens` loop: build `resolved` by assignment in
iteration order, stopping at the first raised exception. -/
def resolveAll (tokens : List (String × Val)) :
    List (String × Val) → List (String × Val) → Except PyErr (List (String × Val))
  | [], acc => .ok acc
  | (key, prop) :: rest, acc =>
    match resolveVal tokens prop with
    | .error e => .error e
    | .ok rv => resolveAll tokens rest (Py.dictInsert acc key rv)

/-- `resolve_tokens` (src/app.py lines 87-111). -/
def resolve_tokens (props tokens : List (String × Val)) : Except PyErr (List (String × Val)) :=
  resolveAll tokens props []

/-- The per-reference-key body of the `compare_components` loop
(src/app.py lines 117-182). -/
def compareOne (key : String) (figma_val : Val) (prLookup : Option Val) :
    Except PyErr (List Issue) :=
  let pr_val := match prLookup with | some v => v | Option.none => Val.none
  if !(Py.truthy pr_val) then
    .ok (if key == "imageAltRequired" && Py.isTrueLiteral figma_val then
          [⟨"MAJOR", "alt", .dict [("required", .bool true)], .dict [("missing", .bool true)],
            "Add alt attribute for accessibility compliance", "ACCESSIBILITY_VIOLATION"⟩]
        else if Py.inStr "hover" key || Py.inStr "focus" key then []
        else
          [⟨"MINOR", key, .dict [("value", figma_val)], .dict [("missing", .bool true)],
            "Add missing property: " ++ key, "MISSING_PROPERTY"⟩])
  else
    match figma_val, pr_val with
    | .dict fd, .dict pd =>
      if Py.truthy (Py.getVal fd "token") && Py.truthy (Py.getVal pd "token") then
        .ok (if !(Py.pyEq (Py.getVal fd "token") (Py.getVal pd "token")) then
              [⟨"MAJOR", key,
                .dict [("token", Py.getVal fd "token"), ("value", Py.getVal fd "resolved")],
                .dict [("token", Py.getVal pd "token"), ("value", Py.getVal pd "resolved")],
                "Update PR to use \x27" ++ Py.pyToString (Py.getVal fd "token") ++
                  "\x27 token instead of \x27" ++ Py.pyToString (Py.getVal pd "token") ++ "\x27",
                "TOKEN_MISMATCH"⟩]
            else [])
      else if !(Py.isNoneV (Py.getVal fd "normalized")) &&
              !(Py.isNoneV (Py.getVal pd "normalized")) then
        match Py.pySub (Py.getVal fd "normalized") (Py.getVal pd "normalized") with
        | .error e => .error e
        | .ok dv =>
          .ok (if 0 < dv.natAbs then
                [⟨if 2 < dv.natAbs then "MAJOR" else "MINOR", key,
                  .dict [("value", Py.getVal fd "value")], .dict [("value", Py.getVal pd "value")],
                  "Consider using " ++ Py.pyToString (Py.getVal fd "value") ++
                    " to match design spec (current: " ++ Py.pyToString (Py.getVal pd "value") ++ ")",
                  "VALUE_DIFFERENCE"⟩]
              else [])
      else if key == "borderRadius" then
        .ok (if Py.pyEq (Py.getVal fd "value") (.str "9999px") &&
                Py.pyEq (Py.getVal pd "value") (.str "50%") then
              [⟨"MINOR", key, .dict [("value", Py.getVal fd "value")],
                .dict [("value", Py.getVal pd "value")],
                "Different border-radius approach but same visual effect",
                "IMPLEMENTATION_DIFFERENCE"⟩]
            else [])
      else .ok []
    | _, _ => .ok []

/-- The `compare_components` loop over the reference keys, appending
each key's issues in iteration order. -/
def compareAll (pr_props : List (String × Val)) :
    List (String × Val) → Except PyErr (List Issue)
  | [] => .ok []
  | (key, figma_val) :: rest =>
    match compareOne key figma_val (Py.dictLookup pr_props key) with
    | .error e => .error e
    | .ok issues1 =>
      match compareAll pr_props rest with
      | .error e => .error e
      | .ok issues2 => .ok (issues1 ++ issues2)

/-- `compare_components` (src/app.py lines 113-184); the
`component_name` parameter is accepted and unused, as in the source. -/
def compare_components (figma_props pr_props : List (String × Val))
    (component_name : String) : Except PyErr (List Issue) :=
  compareAll pr_props figma_props

end App

/-! ## The core of `src/index.py` -/

namespace Index

/-- `parse_property_value` (src/index.py lines 60-94); textually
identical to the copy in src/app.py. -/
def parse_property_value : Val → Except PyErr Val
  | .str value =>
    match Py.searchCssVar value with
    | some token_name => .ok (.dict [("token", .str token_name), ("value", .str token_name)])
    | Option.none =>
      if Py.strEndsWith value "px" then
        if Py.charIn ' ' value then .ok (.dict [("value", .str value)])
        else
          match Py.pyInt? (Py.pyReplace value "px" "") with
          | some n => .ok (.dict [("value", .str value), ("normalized", .int n)])
          | Option.none => .ok (.dict [("value", .str value)])
      else if Py.strEndsWith value "%" then
        .ok (.dict [("value", .str value), ("type", .str "percentage")])
      else if Py.pyIsDigit value then
        match Py.pyInt? value with
        | some n => .ok (.dict [("value", .str value), ("normalized", .int n)])
        | Option.none => .error .valueError
      else if Py.charIn '-' value && !(Py.strStartsWith value "var(") then
        .ok (.dict [("token", .str value), ("value", .str value)])
      else .ok (.dict [("value", .str value)])
  | _ => .error .typeError

/-- `map_css_property_name` (src/index.py lines 96-109). -/
def map_css_property_name (css_prop : String) : String :=
  (([("color", "textColor"), ("background", "backgroundColor"),
     ("backgroundColor", "backgroundColor"), ("fontSize", "fontSize"),
     ("fontWeight", "fontWeight"), ("fontFamily", "fontFamily"),
     ("borderRadius", "borderRadius"), ("padding", "padding"),
     ("lineHeight", "lineHeight")] : List (String × String)).lookup css_prop).getD css_prop

/-- The attribute loop of `parse_jsx_props` (src/index.py lines 35-38). -/
def attrFold : List (String × String) → List (String × Val) → Except PyErr (List (String × Val))
  | [], props => .ok props
  | (key, value) :: rest, props =>
    if key == "style" then attrFold rest props
    else
      match parse_property_value (.str value) with
      | .error e => .error e
      | .ok pv => attrFold rest (Py.dictInsert props key pv)

/-- The style loop of `parse_jsx_props` (src/index.py lines 50-56). -/
def styleFold : List (String × String) → List (String × Val) → Except PyErr (List (String × Val))
  | [], props => .ok props
  | (css_key, css_value) :: rest, props =>
    match parse_property_value (.str (Py.stripQuotes (Py.pyStrip css_value))) with
    | .error e => .error e
    | .ok pv => styleFold rest (Py.dictInsert props (map_css_property_name css_key) pv)

/-- `parse_jsx_props` (src/index.py lines 27-58). -/
def parse_jsx_props (jsx_content : String) : Except PyErr (List (String × Val)) :=
  match attrFold (Py.findAttrs jsx_content) [] with
  | .error e => .error e
  | .ok props =>
    match Py.findStyleBlock jsx_content with
    | Option.none => .ok props
    | some style_content => styleFold (Py.findCssProps style_content) props

/-- The canonical name and cleaned raw value a style-block match
contributes: the per-entry preprocessing done by the style loop before
parsing.  Used to state properties of `parse_jsx_props`. -/
def styleEntry (kv : String × String) : String × String :=
  (map_css_property_name kv.1, Py.stripQuotes (Py.pyStrip kv.2))

/-- The token/value stage of the structured-descriptor branch of
`resolve_tokens` (src/index.py lines 128-134); textually identical to
the whole structured-descriptor branch of src/app.py. -/
def resolveDictCore (tokens : List (String × Val)) (d : List (String × Val)) :
    Except PyErr (List (String × Val)) :=
  match Py.dictLookup d "token" with
  | some tv =>
    match Py.valInTokens tokens tv with
    | .error e => .error e
    | .ok true => .ok (Py.dictInsert d "resolved" (Py.tokensGet tokens tv))
    | .ok false =>
      match Py.dictLookup d "value" with
      | some vv =>
        match Py.valInTokens tokens vv with
        | .error e => .error e
        | .ok true =>
          .ok (Py.dictInsert (Py.dictInsert d "resolved" (Py.tokensGet tokens vv)) "token" vv)
        | .ok false => .ok d
      | Option.none => .ok d
  | Option.none =>
    match Py.dictLookup d "value" with
    | some vv =>
      match Py.valInTokens tokens vv with
      | .error e => .error e
      | .ok true =>
        .ok (Py.dictInsert (Py.dictInsert d "resolved" (Py.tokensGet tokens vv)) "token" vv)
      | .ok false => .ok d
    | Option.none => .ok d

/-- The structured-descriptor branch of `resolve_tokens`
(src/index.py lines 127-138): the token/value stage, followed by the
pixel-normalization re-check unique to this file, whose `int(...)` call
is unguarded. -/
def resolveDict (tokens : List (String × Val)) (d : List (String × Val)) :
    Except PyErr (List (String × Val)) :=
  match resolveDictCore tokens d with
  | .error e => .error e
  | .ok r1 =>
    match Py.dictLookup d "value" with
    | some (Val.str s) =>
      if Py.strEndsWith s "px" && !(Py.charIn ' ' s) then
        match Py.pyInt? (Py.pyReplace s "px" "") with
        | some n => .ok (Py.dictInsert r1 "normalized" (.int n))
        | Option.none => .error .valueError
      else .ok r1
    | _ => .ok r1

/-- The body of the `resolve_tokens` loop (src/index.py lines 115-138). -/
def resolveVal (tokens : List (String × Val)) : Val → Except PyErr Val
  | .dict d =>
    match resolveDict tokens d with
    | .error e => .error e
    | .ok r => .ok (.dict r)
  | .str s =>
    match Py.valInTokens tokens (.str s) with
    | .error e => .error e
    | .ok true =>
      .ok (.dict [("token", .str s), ("value", .str s), ("resolved", Py.tokensGet tokens (.str s))])
    | .ok false =>
      if Py.strEndsWith s "px" && !(Py.charIn ' ' s) then
        match Py.pyInt? (Py.pyReplace s "px" "") with
        | some n => .ok (.dict [("value", .str s), ("normalized", .int n)])
        | Option.none => .error .valueError
      else .ok (.dict [("value", .str s)])
  | prop => .ok (.dict [("value", prop)])

/-- The `resolve_tokens` loop in iteration order. -/
def resolveAll (tokens : List (String × Val)) :
    List (String × Val) → List (String × Val) → Except PyErr (List (String × Val))
  | [], acc => .ok acc
  | (key, prop) :: rest, acc =>
    match resolveVal tokens prop with
    | .error e => .error e
    | .ok rv => resolveAll tokens rest (Py.dictInsert acc key rv)

/-- `resolve_tokens` (src/index.py lines 111-140). -/
def resolve_tokens (props tokens : List (String × Val)) : Except PyErr (List (String × Val)) :=
  resolveAll tokens props []

/-- The per-reference-key body of the `compare_components` loop
(src/index.py lines 146-213); textually identical to the copy in
src/app.py. -/
def compareOne (key : String) (figma_val : Val) (prLookup : Option Val) :
    Except PyErr (List Issue) :=
  let pr_val := match prLookup with | some v => v | Option.none => Val.none
  if !(Py.truthy pr_val) then
    .ok (if key == "imageAltRequired" && Py.isTrueLiteral figma_val then
          [⟨"MAJOR", "alt", .dict [("required", .bool true)], .dict [("missing", .bool true)],
            "Add alt attribute for accessibility compliance", "ACCESSIBILITY_VIOLATION"⟩]
        else if Py.inStr "hover" key || Py.inStr "focus" key then []
        else
          [⟨"MINOR", key, .dict [("value", figma_val)], .dict [("missing", .bool true)],
            "Add missing property: " ++ key, "MISSING_PROPERTY"⟩])
  else
    match figma_val, pr_val with
    | .dict fd, .dict pd =>
      if Py.truthy (Py.getVal fd "token") && Py.truthy (Py.getVal pd "token") then
        .ok (if !(Py.pyEq (Py.getVal fd "token") (Py.getVal pd "token")) then
              [⟨"MAJOR", key,
                .dict [("token", Py.getVal fd "token"), ("value", Py.getVal fd "resolved")],
                .dict [("token", Py.getVal pd "token"), ("value", Py.getVal pd "resolved")],
                "Update PR to use \x27" ++ Py.pyToString (Py.getVal fd "token") ++
                  "\x27 token instead of \x27" ++ Py.pyToString (Py.getVal pd "token") ++ "\x27",
                "TOKEN_MISMATCH"⟩]
            else [])
      else if !(Py.isNoneV (Py.getVal fd "normalized")) &&
              !(Py.isNoneV (Py.getVal pd "normalized")) then
        match Py.pySub (Py.getVal fd "normalized") (Py.getVal pd "normalized") with
        | .error e => .error e
        | .ok dv =>
          .ok (if 0 < dv.natAbs then
                [⟨if 2 < dv.natAbs then "MAJOR" else "MINOR", key,
                  .dict [("value", Py.getVal fd "value")], .dict [("value", Py.getVal pd "value")],
                  "Consider using " ++ Py.pyToString (Py.getVal fd "value") ++
                    " to match design spec (current: " ++ Py.pyToString (Py.getVal pd "value") ++ ")",
                  "VALUE_DIFFERENCE"⟩]
              else [])
      else if key == "borderRadius" then
        .ok (if Py.pyEq (Py.getVal fd "value") (.str "9999px") &&
                Py.pyEq (Py.getVal pd "value") (.str "50%") then
              [⟨"MINOR", key, .dict [("value", Py.getVal fd "value")],
                .dict [("value", Py.getVal pd "value")],
                "Different border-radius approach but same visual effect",
                "IMPLEMENTATION_DIFFERENCE"⟩]
            else [])
      else .ok []
    | _, _ => .ok []

/-- The `compare_components` loop over the reference keys. -/
def compareAll (pr_props : List (String × Val)) :
    List (String × Val) → Except PyErr (List Issue)
  | [] => .ok []
  | (key, figma_val) :: rest =>
    match compareOne key figma_val (Py.dictLookup pr_props key) with
    | .error e => .error e
    | .ok issues1 =>
      match compareAll pr_props rest with
      | .error e => .error e
      | .ok issues2 => .ok (issues1 ++ issues2)

/-- `compare_components` (src/index.py lines 142-215); the
`component_name` parameter is accepted and unused, as in the source. -/
def compare_components (figma_props pr_props : List (String × Val))
    (component_name : String) : Except PyErr (List Issue) :=
  compareAll pr_props figma_props

end Index

/-- The warnings tally of the result summary: src/app.py line 246,
`len([i for i in issues if i['severity'] == 'WARNING'])`. -/
def warningsCount (issues : List Issue) : Nat :=
  (issues.filter (fun i => i.severity == "WARNING")).length

/-- The value of the last assignment with key `n` in a list of
key-value assignments processed left to right. -/
def lastAssign : List (String × String) → String → Option String
  | [], _ => Option.none
  | kv :: rest, n =>
    match lastAssign rest n with
    | some v => some v
    | Option.none => if kv.1 == n then some kv.2 else Option.none

/-! ## Supporting lemmas -/

namespace Py

theorem attrAt_length (cs : List Char) (k v : String) (rem : List Char)
    (h : attrAt cs = some (k, v, rem)) : rem.length < cs.length := by
  simp only [attrAt] at h
  split at h
  next heq =>
    have hlen := congrArg List.length heq
    simp only [List.length_drop, List.length_cons] at hlen
    have htw : (cs.takeWhile isWordChar).length ≤ cs.length :=
      (List.takeWhile_prefix isWordChar).length_le
    split at h
    · exact absurd h (by simp)
    · cases h
      simp only [List.length_drop]
      omega
  next => exact absurd h (by simp)

theorem cssAt_length (cs : List Char) (k v : String) (rem : List Char)
    (h : cssAt cs = some (k, v, rem)) : rem.length < cs.length := by
  simp only [cssAt] at h
  split at h
  next heq =>
    have hlen := congrArg List.length heq
    simp only [List.length_drop, List.length_cons] at hlen
    have htw : (cs.takeWhile isWordChar).length ≤ cs.length :=
      (List.takeWhile_prefix isWordChar).length_le
    split at h
    · exact absurd h (by simp)
    split at h
    · cases h
      simp only [List.length_drop]
      omega
    · split at h
      next wc hws =>
        cases h
        simp only [List.length_drop]
        omega
      next => exact absurd h (by simp)
  next => exact absurd h (by simp)

theorem dictLookup_dictInsert_self (m : List (String × Val)) (k : String) (v : Val) :
    dictLookup (dictInsert m k v) k = some v := by
  induction m with
  | nil => simp [dictInsert, dictLookup]
  | cons kv rest ih =>
    by_cases h : (kv.1 == k) = true
    · simp [dictInsert, dictLookup, h]
    · simp only [Bool.not_eq_true] at h
      simp [dictInsert, dictLookup, h, ih]

theorem dictLookup_dictInsert_ne (m : List (String × Val)) (k n : String) (v : Val)
    (h : k ≠ n) : dictLookup (dictInsert m k v) n = dictLookup m n := by
  induction m with
  | nil => simp [dictInsert, dictLookup, h]
  | cons kv rest ih =>
    by_cases hk : (kv.1 == k) = true
    · have hkn : (kv.1 == n) = false := by
        rw [beq_iff_eq.mp hk]
        exact beq_eq_false_iff_ne.mpr h
      simp [dictInsert, dictLookup, hk, hkn]
    · simp only [Bool.not_eq_true] at hk
      by_cases hn : (kv.1 == n) = true
      · simp [dictInsert, dictLookup, hk, hn]
      · simp only [Bool.not_eq_true] at hn
        simp [dictInsert, dictLookup, hk, hn, ih]

theorem getVal_dictInsert_self (m : List (String × Val)) (k : String) (v : Val) :
    getVal (dictInsert m k v) k = v := by
  simp [getVal, dictLookup_dictInsert_self]

theorem dropWhile_of_forall_false (p : Char → Bool) (cs : List Char)
    (h : ∀ c ∈ cs, p c = false) : cs.dropWhile p = cs := by
  cases cs with
  | nil => rfl
  | cons c rest => simp [List.dropWhile_cons, h c (by simp)]

theorem stripWhile_of_forall_false (p : Char → Bool) (cs : List Char)
    (h : ∀ c ∈ cs, p c = false) : stripWhile p cs = cs := by
  unfold stripWhile
  rw [dropWhile_of_forall_false p cs h,
      dropWhile_of_forall_false p cs.reverse (fun c hc => h c (List.mem_reverse.mp hc)),
      List.reverse_reverse]

theorem beq_false_of_digit {c ch : Char} (hd : c.isDigit = true)
    (hch : ch.isDigit = false) : (c == ch) = false := by
  apply beq_eq_false_iff_ne.mpr
  intro hc
  rw [hc] at hd
  rw [hd] at hch
  cases hch

theorem isWs_of_digit (c : Char) (hd : c.isDigit = true) : isWs c = false := by
  unfold isWs
  rw [beq_false_of_digit hd (by decide), beq_false_of_digit hd (by decide),
      beq_false_of_digit hd (by decide), beq_false_of_digit hd (by decide),
      beq_false_of_digit hd (by decide), beq_false_of_digit hd (by decide)]
  rfl

theorem decDigitVal_of_isDigit (c : Char) (h : c.isDigit = true) :
    decDigitVal? c = some (c.toNat - 48) := by
  simp only [Char.isDigit, Bool.and_eq_true, decide_eq_true_eq] at h
  have hc : (48 ≤ c.toNat && c.toNat ≤ 57) = true := by
    simp only [Bool.and_eq_true, decide_eq_true_eq]
    exact ⟨h.1, h.2⟩
  unfold decDigitVal?
  rw [hc]
  simp

theorem pyDigitsAux_all_digits (cs : List Char) :
    ∀ acc : Nat, cs.all Char.isDigit = true →
      pyDigitsAux cs acc = some (cs.foldl (fun a c => a * 10 + (c.toNat - 48)) acc) := by
  induction cs with
  | nil => intro acc h; rfl
  | cons c rest ih =>
    intro acc h
    simp only [List.all_cons, Bool.and_eq_true] at h
    cases rest with
    | nil =>
      show pyDigitsAux [c] acc = _
      rw [pyDigitsAux, decDigitVal_of_isDigit c h.1]
      rfl
    | cons c2 rest2 =>
      rw [pyDigitsAux, decDigitVal_of_isDigit c h.1]
      exact ih _ h.2

theorem pyInt_of_digits (s : String) (h1 : s.data ≠ []) (h2 : s.data.all Char.isDigit = true) :
    pyInt? s = some ((digitVal s.data : Nat) : Int) := by
  unfold pyInt?
  have hstrip : stripWhile isWs s.data = s.data := by
    refine stripWhile_of_forall_false _ _ (fun c hc => ?_)
    refine isWs_of_digit c ?_
    rw [List.all_eq_true] at h2
    exact h2 c hc
  rw [hstrip]
  cases hd : s.data with
  | nil => exact absurd hd h1
  | cons c rest =>
    rw [hd] at h2
    simp only [List.all_cons, Bool.and_eq_true] at h2
    have hcd := h2.1
    have hnm : (c == '-') = false := beq_false_of_digit hcd (by decide)
    have hnp : (c == '+') = false := beq_false_of_digit hcd (by decide)
    simp only [hnm, hnp, Bool.false_eq_true, if_false, pyDigits,
      decDigitVal_of_isDigit c hcd]
    rw [pyDigitsAux_all_digits rest _ h2.2]
    simp [digitVal]

end Py

namespace Py

theorem ne_v_of_digit {c : Char} (hd : c.isDigit = true) : c ≠ 'v' := by
  intro hc
  rw [hc] at hd
  cases hd

theorem searchCssVarAux_of_no_v (cs : List Char) (h : ∀ c ∈ cs, c ≠ 'v') :
    searchCssVarAux cs = Option.none := by
  induction cs with
  | nil => rfl
  | cons c rest ih =>
    have hpre : ("var(--".data.isPrefixOf (c :: rest)) = false := by
      rw [show "var(--".data = 'v' :: "ar(--".data from rfl]
      simp only [List.isPrefixOf, Bool.and_eq_false_iff]
      exact Or.inl (beq_eq_false_iff_ne.mpr (fun hv => (h c (by simp)) hv.symm))
    have hc : cssVarAt (c :: rest) = Option.none := by
      unfold cssVarAt
      rw [hpre]
      simp
    rw [searchCssVarAux, hc]
    exact ih (fun c2 hc2 => h c2 (by simp [hc2]))

theorem searchCssVar_of_no_v (s : String) (h : ∀ c ∈ s.data, c ≠ 'v') :
    searchCssVar s = Option.none :=
  searchCssVarAux_of_no_v s.data h

theorem strEndsWith_append (s t : String) : strEndsWith (s ++ t) t = true := by
  unfold strEndsWith
  rw [String.data_append]
  exact List.isSuffixOf_iff_suffix.mpr ⟨s.data, rfl⟩

theorem charIn_eq_false (c : Char) (s : String) (h : ¬ c ∈ s.data) :
    charIn c s = false := by
  unfold charIn
  rw [Bool.eq_false_iff]
  intro hc
  exact h (List.elem_iff.mp (by simpa [List.contains] using hc))

theorem replaceAux_digits (ds : List Char) (h : ∀ c ∈ ds, c.isDigit = true) :
    replaceAux 'p' ['x'] [] (ds.length + 2) (ds ++ ['p', 'x']) = ds := by
  induction ds with
  | nil => rfl
  | cons d rest ih =>
    have hd := h d (by simp)
    have hp : (('p' : Char) == d) = false := by
      apply beq_eq_false_iff_ne.mpr
      intro hc
      rw [← hc] at hd
      cases hd
    show replaceAux 'p' ['x'] [] ((rest.length + 2) + 1) (d :: (rest ++ ['p', 'x'])) = d :: rest
    rw [replaceAux]
    simp only [List.isPrefixOf, hp, Bool.false_and, Bool.false_eq_true, if_false]
    rw [ih (fun c2 hc2 => h c2 (by simp [hc2]))]

theorem pyReplace_digits_px (s : String) (h : ∀ c ∈ s.data, c.isDigit = true) :
    pyReplace (s ++ "px") "px" "" = s := by
  unfold pyReplace
  rw [show "px".data = ['p', 'x'] from rfl]
  show String.mk (replaceAux 'p' ['x'] "".data (s ++ "px").data.length (s ++ "px").data) = s
  rw [show "".data = ([] : List Char) from rfl, String.data_append,
      show "px".data = ['p', 'x'] from rfl]
  rw [show (s.data ++ ['p', 'x']).length = s.data.length + 2 by simp]
  rw [replaceAux_digits s.data h]

end Py

namespace Py

theorem truthy_dict_of_getVal_int (pd : List (String × Val)) (k : String) (n : Int)
    (h : getVal pd k = Val.int n) : truthy (Val.dict pd) = true := by
  cases pd with
  | nil => simp [getVal, dictLookup] at h
  | cons kv rest => simp [truthy]

end Py

namespace Index

theorem compareOne_cases (key : String) (v : Val) (o : Option Val) (r : List Issue)
    (h : compareOne key v o = .ok r) :
    r = [] ∨ ∃ i, r = [i] ∧ (i.severity = "MAJOR" ∨ i.severity = "MINOR") := by
  simp only [compareOne] at h
  split at h
  · simp only [Except.ok.injEq] at h
    subst h
    split
    · exact Or.inr ⟨_, rfl, Or.inl rfl⟩
    · split
      · exact Or.inl rfl
      · exact Or.inr ⟨_, rfl, Or.inr rfl⟩
  · split at h
    · split at h
      · simp only [Except.ok.injEq] at h
        subst h
        split
        · exact Or.inr ⟨_, rfl, Or.inl rfl⟩
        · exact Or.inl rfl
      · split at h
        · split at h
          · exact absurd h (by simp)
          · simp only [Except.ok.injEq] at h
            subst h
            split
            · refine Or.inr ⟨_, rfl, ?_⟩
              split
              · exact Or.inl rfl
              · exact Or.inr rfl
            · exact Or.inl rfl
        · split at h
          · simp only [Except.ok.injEq] at h
            subst h
            split
            · exact Or.inr ⟨_, rfl, Or.inr rfl⟩
            · exact Or.inl rfl
          · simp only [Except.ok.injEq] at h
            subst h
            exact Or.inl rfl
    · simp only [Except.ok.injEq] at h
      subst h
      exact Or.inl rfl

theorem compareAll_structure (pr : List (String × Val)) :
    ∀ (figma : List (String × Val)) (issues : List Issue),
      compareAll pr figma = .ok issues →
      ∃ perKey : List (List Issue), perKey.length = figma.length ∧ issues = perKey.flatten ∧
        ∀ l ∈ perKey, l = [] ∨ ∃ i, l = [i] ∧ (i.severity = "MAJOR" ∨ i.severity = "MINOR") := by
  intro figma
  induction figma with
  | nil =>
    intro issues h
    simp only [compareAll, Except.ok.injEq] at h
    subst h
    exact ⟨[], rfl, rfl, by simp⟩
  | cons kv rest ih =>
    intro issues h
    simp only [compareAll] at h
    split at h
    · exact absurd h (by simp)
    next i1 h1 =>
      split at h
      · exact absurd h (by simp)
      next i2 h2 =>
        simp only [Except.ok.injEq] at h
        subst h
        obtain ⟨perKey, hlen, hjoin, hprop⟩ := ih i2 h2
        refine ⟨i1 :: perKey, by simp [hlen], by simp [hjoin], ?_⟩
        intro l hl
        rcases List.mem_cons.mp hl with hl1 | hl2
        · subst hl1
          exact compareOne_cases kv.1 kv.2 (Py.dictLookup pr kv.1) l h1
        · exact hprop l hl2

end Index

namespace Index

theorem styleFold_lookup_none (n : String) :
    ∀ (l : List (String × String)) (init m : List (String × Val)),
      lastAssign (l.map styleEntry) n = Option.none →
      styleFold l init = .ok m → Py.dictLookup m n = Py.dictLookup init n := by
  intro l
  induction l with
  | nil =>
    intro init m _ h
    simp only [styleFold, Except.ok.injEq] at h
    subst h
    rfl
  | cons kv rest ih =>
    intro init m hla h
    simp only [List.map_cons, lastAssign] at hla
    split at hla
    · cases hla
    next hrest =>
      split at hla
      · cases hla
      next hne =>
        simp only [styleFold] at h
        split at h
        · exact absurd h (by simp)
        next pv hpv =>
          rw [ih _ _ hrest h]
          refine Py.dictLookup_dictInsert_ne _ _ _ _ ?_
          intro hx
          apply hne
          simp [styleEntry, hx]

theorem styleFold_lookup_last (n : String) :
    ∀ (l : List (String × String)) (init : List (String × Val)) (rv : String)
      (m : List (String × Val)),
      lastAssign (l.map styleEntry) n = some rv →
      styleFold l init = .ok m →
      ∃ pv, parse_property_value (.str rv) = .ok pv ∧ Py.dictLookup m n = some pv := by
  intro l
  induction l with
  | nil =>
    intro init rv m hla _
    cases hla
  | cons kv rest ih =>
    intro init rv m hla h
    simp only [List.map_cons, lastAssign] at hla
    simp only [styleFold] at h
    split at h
    · exact absurd h (by simp)
    next pv hpv =>
      split at hla
      next v hrest =>
        cases hla
        exact ih _ _ _ hrest h
      next hrest =>
        split at hla
        next heq =>
          cases hla
          have hkey : (styleEntry kv).1 = n := beq_iff_eq.mp heq
          have hlook := styleFold_lookup_none n rest _ _ hrest h
          rw [hlook, ← hkey]
          simp only [styleEntry]
          refine ⟨pv, ?_, Py.dictLookup_dictInsert_self _ _ _⟩
          simpa [styleEntry] using hpv
        · cases hla

end Index

namespace Index

theorem resolveDictCore_ok (tokens d : List (String × Val)) (s : String)
    (hval : Py.dictLookup d "value" = some (Val.str s))
    (htok : ∀ tv, Py.dictLookup d "token" = some tv → Py.hashable tv = true) :
    ∃ r1, resolveDictCore tokens d = .ok r1 := by
  cases htv : Py.dictLookup d "token" with
  | none =>
    cases hb : Py.valInTokens tokens (Val.str s) with
    | error e => simp [Py.valInTokens] at hb
    | ok b =>
      cases b
      · exact ⟨d, by simp only [resolveDictCore, htv, hval, hb]⟩
      · exact ⟨Py.dictInsert (Py.dictInsert d "resolved" (Py.tokensGet tokens (Val.str s)))
          "token" (Val.str s), by simp only [resolveDictCore, htv, hval, hb]⟩
  | some tv =>
    have hh := htok tv htv
    have hex : ∃ b, Py.valInTokens tokens tv = .ok b := by
      cases tv with
      | dict dd => simp [Py.hashable] at hh
      | str s2 => exact ⟨_, rfl⟩
      | int n2 => exact ⟨_, rfl⟩
      | bool b2 => exact ⟨_, rfl⟩
      | none => exact ⟨_, rfl⟩
    obtain ⟨b, hb⟩ := hex
    cases b
    · cases hb2 : Py.valInTokens tokens (Val.str s) with
      | error e => simp [Py.valInTokens] at hb2
      | ok b2 =>
        cases b2
        · exact ⟨d, by simp only [resolveDictCore, htv, hval, hb, hb2]⟩
        · exact ⟨Py.dictInsert (Py.dictInsert d "resolved" (Py.tokensGet tokens (Val.str s)))
            "token" (Val.str s), by simp only [resolveDictCore, htv, hval, hb, hb2]⟩
    · exact ⟨Py.dictInsert d "resolved" (Py.tokensGet tokens tv),
        by simp only [resolveDictCore, htv, hb]⟩

end Index

/-! ## Claim theorems -/

/-- Claim C1 (code bug): after token resolution wraps the reference
boolean into the descriptor `{'value': True}`, the hard-coded
accessibility rule's `figma_val is True` test in `compare_components`
can no longer fire, so the pipeline run on reference props
`{"imageAltRequired": true}` with implementation markup `<img />` (which
yields no properties) emits one `MINOR` `MISSING_PROPERTY` issue instead
of the `MAJOR` `ACCESSIBILITY_VIOLATION` issue the claim (and the rule's
own recommendation text) calls for. -/
theorem accessibility_pipeline_emits_minor_missing :
    Index.parse_jsx_props "<img />" = .ok [] ∧
    Index.resolve_tokens [("imageAltRequired", Val.bool true)] [] =
      .ok [("imageAltRequired", Val.dict [("value", Val.bool true)])] ∧
    Index.resolve_tokens [] [] = .ok [] ∧
    Index.compare_components [("imageAltRequired", Val.dict [("value", Val.bool true)])] []
        "avatar" =
      .ok [⟨"MINOR", "imageAltRequired",
            Val.dict [("value", Val.dict [("value", Val.bool true)])],
            Val.dict [("missing", Val.bool true)],
            "Add missing property: imageAltRequired", "MISSING_PROPERTY"⟩] :=
  ⟨rfl, rfl, rfl, rfl⟩

/-- Claim C2, counterexample: `resolve_tokens` raises `ValueError` on a
raw string value ending in `px` whose digit part does not parse (the
`int(...)` call on src/app.py line 97 and src/index.py line 122 is not
guarded by a `try`). -/
theorem resolve_tokens_raises_on_unparsable_px :
    Index.resolve_tokens [("padding", Val.str "abcpx")] [] = .error PyErr.valueError ∧
    App.resolve_tokens [("padding", Val.str "abcpx")] [] = .error PyErr.valueError :=
  ⟨rfl, rfl⟩

/-- Claim C2 (amended): the local absorption of length-parse failures
happens in `parse_property_value`, not in `resolve_tokens`: for every
string ending in `px` with no space, not matching the CSS-variable
pattern, and whose digit part fails to parse, `parse_property_value`
falls back to the value-only descriptor instead of raising. -/
theorem parse_property_value_absorbs_px_failure (s : String)
    (hcv : Py.searchCssVar s = Option.none)
    (hpx : Py.strEndsWith s "px" = true)
    (hsp : Py.charIn ' ' s = false)
    (hint : Py.pyInt? (Py.pyReplace s "px" "") = Option.none) :
    Index.parse_property_value (.str s) = .ok (.dict [("value", Val.str s)]) ∧
    App.parse_property_value (.str s) = .ok (.dict [("value", Val.str s)]) := by
  have h1 : Index.parse_property_value (.str s) = .ok (.dict [("value", Val.str s)]) := by
    simp [Index.parse_property_value, hcv, hpx, hsp, hint]
  exact ⟨h1, h1⟩

/-- Witness for `parse_property_value_absorbs_px_failure` at the
concrete input `"abcpx"`. -/
theorem parse_property_value_absorbs_px_failure_witness :
    Index.parse_property_value (.str "abcpx") = .ok (.dict [("value", Val.str "abcpx")]) ∧
    App.parse_property_value (.str "abcpx") = .ok (.dict [("value", Val.str "abcpx")]) :=
  parse_property_value_absorbs_px_failure "abcpx" rfl rfl rfl rfl

/-- Claim C3, counterexample: the two `resolve_tokens` functions
disagree on the property map `{"k": {"value": "5px"}}` with an empty
token dictionary: src/app.py leaves the descriptor unchanged while
src/index.py additionally populates `normalized`. -/
theorem resolve_tokens_divergence_app_vs_index :
    App.resolve_tokens [("k", Val.dict [("value", Val.str "5px")])] [] =
      .ok [("k", Val.dict [("value", Val.str "5px")])] ∧
    Index.resolve_tokens [("k", Val.dict [("value", Val.str "5px")])] [] =
      .ok [("k", Val.dict [("value", Val.str "5px"), ("normalized", Val.int 5)])] ∧
    App.resolve_tokens [("k", Val.dict [("value", Val.str "5px")])] [] ≠
      Index.resolve_tokens [("k", Val.dict [("value", Val.str "5px")])] [] := by
  refine ⟨rfl, rfl, fun h => ?_⟩
  have hobs := congrArg
    (fun e : Except PyErr (List (String × Val)) =>
      match e with
      | .ok [(_, Val.dict d)] => (Py.dictLookup d "normalized").isSome
      | _ => false) h
  exact Bool.noConfusion hobs

theorem attrFold_eq : App.attrFold = Index.attrFold := by
  funext l
  induction l with
  | nil => rfl
  | cons kv rest ih =>
    funext props
    simp only [App.attrFold, Index.attrFold,
      show App.parse_property_value = Index.parse_property_value from rfl]
    by_cases hs : (kv.1 == "style") = true
    · simp only [hs, if_true, ih]
    · simp only [Bool.not_eq_true] at hs
      simp only [hs, Bool.false_eq_true, if_false]
      cases hp : Index.parse_property_value (.str kv.2) with
      | error e => rfl
      | ok pv => simp only [ih]

theorem styleFold_eq : App.styleFold = Index.styleFold := by
  funext l
  induction l with
  | nil => rfl
  | cons kv rest ih =>
    funext props
    simp only [App.styleFold, Index.styleFold,
      show App.parse_property_value = Index.parse_property_value from rfl,
      show App.map_css_property_name = Index.map_css_property_name from rfl]
    cases hp : Index.parse_property_value (.str (Py.stripQuotes (Py.pyStrip kv.2))) with
    | error e => rfl
    | ok pv => simp only [ih]

theorem parse_jsx_props_eq : App.parse_jsx_props = Index.parse_jsx_props := by
  funext jsx
  simp only [App.parse_jsx_props, Index.parse_jsx_props, attrFold_eq, styleFold_eq]

theorem compareAll_eq : App.compareAll = Index.compareAll := by
  funext pr l
  induction l with
  | nil => rfl
  | cons kv rest ih =>
    simp only [App.compareAll, Index.compareAll,
      show App.compareOne = Index.compareOne from rfl]
    cases h1 : Index.compareOne kv.1 kv.2 (Py.dictLookup pr kv.1) with
    | error e => rfl
    | ok i1 => simp only [ih]

theorem compare_components_eq : App.compare_components = Index.compare_components := by
  funext figma pr cn
  simp only [App.compare_components, Index.compare_components, compareAll_eq]

/-- Claim C3 (amended): of the five core functions, the four that are
textually identical in the two files — `parse_property_value`,
`parse_jsx_props`, `map_css_property_name` and `compare_components` —
agree on all inputs; only `resolve_tokens` differs (src/index.py's copy
additionally normalizes single pixel-length `value` fields of structured
descriptors, raising on unparsable digit parts). -/
theorem core_functions_agree :
    App.parse_property_value = Index.parse_property_value ∧
    App.parse_jsx_props = Index.parse_jsx_props ∧
    App.map_css_property_name = Index.map_css_property_name ∧
    App.compare_components = Index.compare_components :=
  ⟨rfl, parse_jsx_props_eq, rfl, compare_components_eq⟩

/-- Claim C4, counterexample: src/app.py's `resolve_tokens` performs no
idempotent re-check: the structured descriptor `{"value": "5px"}` passes
through with no `normalized` field (the claim requires `normalized = 5`
in the resolver's output). -/
theorem app_resolver_leaves_normalized_unset :
    App.resolve_tokens [("padding", Val.dict [("value", Val.str "5px")])] [] =
      .ok [("padding", Val.dict [("value", Val.str "5px")])] ∧
    Py.dictLookup [("value", Val.str "5px")] "normalized" = Option.none :=
  ⟨rfl, rfl⟩

/-- Claim C4 (amended): the idempotent re-check exists only in
src/index.py's `resolve_tokens`, and only populates `normalized` when
the digit part of the `px` string parses (otherwise it raises); under
those conditions (and a hashable `token` field, since an unhashable one
raises earlier) the output descriptor carries the parsed magnitude. -/
theorem index_recheck_populates_normalized
    (k : String) (d tokens : List (String × Val)) (s : String) (n : Int)
    (hval : Py.dictLookup d "value" = some (Val.str s))
    (htok : ∀ tv, Py.dictLookup d "token" = some tv → Py.hashable tv = true)
    (hpx : Py.strEndsWith s "px" = true)
    (hsp : Py.charIn ' ' s = false)
    (hint : Py.pyInt? (Py.pyReplace s "px" "") = some n) :
    ∃ d2, Index.resolve_tokens [(k, Val.dict d)] tokens = .ok [(k, Val.dict d2)] ∧
      Py.getVal d2 "normalized" = Val.int n := by
  obtain ⟨r1, hr1⟩ := Index.resolveDictCore_ok tokens d s hval htok
  refine ⟨Py.dictInsert r1 "normalized" (Val.int n), ?_, Py.getVal_dictInsert_self _ _ _⟩
  simp only [Index.resolve_tokens, Index.resolveAll, Index.resolveVal, Index.resolveDict,
    hr1, hval, hpx, hsp, hint]
  simp [Py.dictInsert]

/-- Witness for `index_recheck_populates_normalized` at the concrete
descriptor `{"value": "5px"}`. -/
theorem index_recheck_populates_normalized_witness :
    ∃ d2, Index.resolve_tokens [("padding", Val.dict [("value", Val.str "5px")])] [] =
        .ok [("padding", Val.dict d2)] ∧ Py.getVal d2 "normalized" = Val.int 5 :=
  index_recheck_populates_normalized "padding" [("value", Val.str "5px")] [] "5px" 5 rfl
    (fun tv htv => Option.noConfusion htv) rfl rfl rfl

/-- Claim C5, counterexample: `parse_property_value` runs the
CSS-variable `re.search` before any `isinstance` guard, so a non-string
scalar input raises `TypeError` instead of passing through unchanged. -/
theorem parse_property_value_raises_on_scalar :
    Index.parse_property_value (Val.int 5) = .error PyErr.typeError ∧
    Index.parse_property_value (Val.bool true) = .error PyErr.typeError ∧
    App.parse_property_value (Val.int 5) = .error PyErr.typeError :=
  ⟨rfl, rfl, rfl⟩

/-- Claim C5 (amended): for every string to which no classification
rule applies, `parse_property_value` returns the pass-through descriptor
`{value: original}` without raising.  The pass-through does not extend
to the rest of the declared domain: non-string scalars raise `TypeError`
(the counterexample), and even on strings the function is not total —
a string that `str.isdigit` classifies as digits but `int` rejects,
such as a superscript two, raises `ValueError` from the unguarded
`int(value)` of the digit branch. -/
theorem parse_passthrough_on_strings (s : String)
    (hcv : Py.searchCssVar s = Option.none)
    (hpx : Py.strEndsWith s "px" = false)
    (hpc : Py.strEndsWith s "%" = false)
    (hdg : Py.pyIsDigit s = false)
    (hhy : (Py.charIn '-' s && !(Py.strStartsWith s "var(")) = false) :
    Index.parse_property_value (.str s) = .ok (.dict [("value", Val.str s)]) ∧
    App.parse_property_value (.str s) = .ok (.dict [("value", Val.str s)]) ∧
    Index.parse_property_value (.str "\u00B2") = .error PyErr.valueError := by
  have h1 : Index.parse_property_value (.str s) = .ok (.dict [("value", Val.str s)]) := by
    simp [Index.parse_property_value, hcv, hpx, hpc, hdg, hhy]
  exact ⟨h1, h1, rfl⟩

/-- Witness for `parse_passthrough_on_strings` at the concrete input
`"hello"`. -/
theorem parse_passthrough_on_strings_witness :
    Index.parse_property_value (.str "hello") = .ok (.dict [("value", Val.str "hello")]) ∧
    App.parse_property_value (.str "hello") = .ok (.dict [("value", Val.str "hello")]) ∧
    Index.parse_property_value (.str "\u00B2") = .error PyErr.valueError :=
  parse_passthrough_on_strings "hello" rfl rfl rfl rfl rfl

/-- Claim C6: for every nonempty digit string rendering a non-negative
integer, parsing that string followed by `px` (no embedded space) yields
a descriptor whose `normalized` field is exactly the denoted integer;
and for every string ending in `px` that contains a space (a compound
length), the returned descriptor has no `normalized` field. -/
theorem px_normalization (s : String) :
    (s.data ≠ [] → s.data.all Char.isDigit = true →
      Index.parse_property_value (.str (s ++ "px")) =
        .ok (.dict [("value", Val.str (s ++ "px")),
                    ("normalized", Val.int ((Py.digitVal s.data : Nat) : Int))])) ∧
    (Py.strEndsWith s "px" = true → Py.charIn ' ' s = true →
      ∃ d, Index.parse_property_value (.str s) = .ok (.dict d) ∧
        Py.dictLookup d "normalized" = Option.none) := by
  constructor
  · intro h1 h2
    have hdig : ∀ c ∈ s.data, c.isDigit = true := by
      rw [List.all_eq_true] at h2
      exact h2
    have hcv : Py.searchCssVar (s ++ "px") = Option.none := by
      apply Py.searchCssVar_of_no_v
      intro c hc
      rw [String.data_append] at hc
      rcases List.mem_append.mp hc with hm | hm
      · exact Py.ne_v_of_digit (hdig c hm)
      · rw [show ("px" : String).data = ['p', 'x'] from rfl] at hm
        simp only [List.mem_cons, List.mem_singleton] at hm
        rcases hm with rfl | rfl | hm
        · decide
        · decide
        · cases hm
    have hpx : Py.strEndsWith (s ++ "px") "px" = true := Py.strEndsWith_append s "px"
    have hsp : Py.charIn ' ' (s ++ "px") = false := by
      apply Py.charIn_eq_false
      intro hc
      rw [String.data_append] at hc
      rcases List.mem_append.mp hc with hm | hm
      · have := hdig _ hm
        exact absurd this (by decide)
      · rw [show ("px" : String).data = ['p', 'x'] from rfl] at hm
        simp at hm
    have hint : Py.pyInt? (Py.pyReplace (s ++ "px") "px" "") =
        some ((Py.digitVal s.data : Nat) : Int) := by
      rw [Py.pyReplace_digits_px s hdig]
      exact Py.pyInt_of_digits s h1 h2
    simp [Index.parse_property_value, hcv, hpx, hsp, hint]
  · intro hpx hsp
    cases hcv : Py.searchCssVar s with
    | some t =>
      exact ⟨[("token", Val.str t), ("value", Val.str t)],
        by simp [Index.parse_property_value, hcv], rfl⟩
    | none =>
      exact ⟨[("value", Val.str s)],
        by simp [Index.parse_property_value, hcv, hpx, hsp], rfl⟩

/-- Witness for `px_normalization` at the concrete inputs `"12"`
(single length) and `"8px 12px"` (compound length). -/
theorem px_normalization_witness :
    Index.parse_property_value (.str ("12" ++ "px")) =
      .ok (.dict [("value", Val.str ("12" ++ "px")),
                  ("normalized", Val.int ((Py.digitVal "12".data : Nat) : Int))]) ∧
    ∃ d, Index.parse_property_value (.str "8px 12px") = .ok (.dict d) ∧
      Py.dictLookup d "normalized" = Option.none :=
  ⟨(px_normalization "12").1 (by decide) (by decide),
   (px_normalization "8px 12px").2 rfl rfl⟩

/-- Claim C7: for a reference key present on both sides with structured
descriptors carrying numeric `normalized` fields, when the two sides do
not both carry (truthy) tokens, the comparator emits exactly one
`VALUE_DIFFERENCE` issue iff the normalized values differ, with severity
`MAJOR` when the absolute difference exceeds 2 and `MINOR` otherwise. -/
theorem value_difference_rule (key : String) (fd pd : List (String × Val)) (a b : Int)
    (ha : Py.getVal fd "normalized" = Val.int a)
    (hb : Py.getVal pd "normalized" = Val.int b)
    (htok : (Py.truthy (Py.getVal fd "token") && Py.truthy (Py.getVal pd "token")) = false) :
    Index.compareOne key (.dict fd) (some (.dict pd)) =
      .ok (if a = b then []
           else [⟨if 2 < (a - b).natAbs then "MAJOR" else "MINOR", key,
                  .dict [("value", Py.getVal fd "value")],
                  .dict [("value", Py.getVal pd "value")],
                  "Consider using " ++ Py.pyToString (Py.getVal fd "value") ++
                    " to match design spec (current: " ++
                    Py.pyToString (Py.getVal pd "value") ++ ")",
                  "VALUE_DIFFERENCE"⟩]) := by
  have htr : Py.truthy (Val.dict pd) = true := Py.truthy_dict_of_getVal_int pd _ b hb
  simp only [Index.compareOne, htr, Bool.not_true, Bool.false_eq_true, if_false, htok, ha, hb,
    Py.isNoneV, Bool.not_false, Bool.and_self, if_true, Py.pySub]
  rcases eq_or_ne a b with hab | hab
  · subst hab
    simp
  · have hpos : 0 < (a - b).natAbs := Int.natAbs_pos.mpr (sub_ne_zero.mpr hab)
    rw [if_pos hpos, if_neg hab]

/-- Witness for `value_difference_rule`: 8px vs 10px is a `MINOR`
difference and 8px vs 12px a `MAJOR` one, per Scenarios 2 and 3. -/
theorem value_difference_rule_witness :
    Index.compareOne "padding" (.dict [("value", Val.str "8px"), ("normalized", Val.int 8)])
        (some (.dict [("value", Val.str "10px"), ("normalized", Val.int 10)])) =
      .ok [⟨"MINOR", "padding", .dict [("value", Val.str "8px")],
            .dict [("value", Val.str "10px")],
            "Consider using 8px to match design spec (current: 10px)", "VALUE_DIFFERENCE"⟩] ∧
    Index.compareOne "padding" (.dict [("value", Val.str "8px"), ("normalized", Val.int 8)])
        (some (.dict [("value", Val.str "12px"), ("normalized", Val.int 12)])) =
      .ok [⟨"MAJOR", "padding", .dict [("value", Val.str "8px")],
            .dict [("value", Val.str "12px")],
            "Consider using 8px to match design spec (current: 12px)", "VALUE_DIFFERENCE"⟩] := by
  constructor
  · have h := value_difference_rule "padding"
      [("value", Val.str "8px"), ("normalized", Val.int 8)]
      [("value", Val.str "10px"), ("normalized", Val.int 10)] 8 10 rfl rfl rfl
    exact h
  · have h := value_difference_rule "padding"
      [("value", Val.str "8px"), ("normalized", Val.int 8)]
      [("value", Val.str "12px"), ("normalized", Val.int 12)] 8 12 rfl rfl rfl
    exact h

/-- Claim C8: whenever the style block of a markup string contributes an
entry for a canonical property name (the last such entry if there are
several), the extracted property map holds the parsed style value for
that name — the style loop runs after the attribute loop and its
assignment overwrites any attribute entry under the same name. -/
theorem style_entry_wins (jsx content n rv : String) (m : List (String × Val))
    (hsb : Py.findStyleBlock jsx = some content)
    (hla : lastAssign ((Py.findCssProps content).map Index.styleEntry) n = some rv)
    (hm : Index.parse_jsx_props jsx = .ok m) :
    ∃ pv, Index.parse_property_value (.str rv) = .ok pv ∧ Py.dictLookup m n = some pv := by
  simp only [Index.parse_jsx_props] at hm
  split at hm
  · exact absurd hm (by simp)
  next props hattr =>
    rw [hsb] at hm
    exact Index.styleFold_lookup_last n _ props rv m hla hm

/-- Witness for `style_entry_wins`: in
`<div padding="8px" style={{padding: "4px"}} />` the attribute sets
`padding` to 8px, and the style entry overwrites it with the parsed
4px descriptor. -/
theorem style_entry_wins_witness :
    ∃ pv, Index.parse_property_value (.str "4px") = .ok pv ∧
      Py.dictLookup [("padding", Val.dict [("value", Val.str "4px"), ("normalized", Val.int 4)])]
        "padding" = some pv :=
  style_entry_wins "<div padding=\"8px\" style=\x7b\x7bpadding: \"4px\"\x7d\x7d />"
    "padding: \"4px\"" "padding" "4px"
    [("padding", Val.dict [("value", Val.str "4px"), ("normalized", Val.int 4)])] rfl rfl rfl

/-- Claim C9: every issue the comparator emits carries severity `MAJOR`
or `MINOR`; in particular the `WARNING` tally of the result summary is
always zero. -/
theorem issue_severities_major_minor (figma pr : List (String × Val)) (cn : String)
    (issues : List Issue) (h : Index.compare_components figma pr cn = .ok issues) :
    issues.all (fun i => i.severity == "MAJOR" || i.severity == "MINOR") = true ∧
    warningsCount issues = 0 := by
  obtain ⟨perKey, hlen, hjoin, hprop⟩ := Index.compareAll_structure pr figma issues h
  subst hjoin
  have hall : ∀ i ∈ perKey.flatten, i.severity = "MAJOR" ∨ i.severity = "MINOR" := by
    intro i hi
    obtain ⟨l, hl, hil⟩ := List.mem_flatten.mp hi
    rcases hprop l hl with rfl | ⟨j, rfl, hsev⟩
    · cases hil
    · have hij : i = j := by simpa using hil
      subst hij
      exact hsev
  constructor
  · rw [List.all_eq_true]
    intro i hi
    rcases hall i hi with hs | hs <;> simp [hs]
  · unfold warningsCount
    rw [List.length_eq_zero]
    rw [List.filter_eq_nil_iff]
    intro i hi
    rcases hall i hi with hs | hs <;> simp [hs]

/-- Witness for `issue_severities_major_minor` at a concrete comparison
that emits one `MAJOR` issue. -/
theorem issue_severities_major_minor_witness :
    ([⟨"MAJOR", "padding", Val.dict [("value", Val.str "8px")],
       Val.dict [("value", Val.str "12px")],
       "Consider using 8px to match design spec (current: 12px)",
       "VALUE_DIFFERENCE"⟩] : List Issue).all
      (fun i => i.severity == "MAJOR" || i.severity == "MINOR") = true ∧
    warningsCount [⟨"MAJOR", "padding", Val.dict [("value", Val.str "8px")],
       Val.dict [("value", Val.str "12px")],
       "Consider using 8px to match design spec (current: 12px)",
       "VALUE_DIFFERENCE"⟩] = 0 :=
  issue_severities_major_minor
    [("padding", Val.dict [("value", Val.str "8px"), ("normalized", Val.int 8)])]
    [("padding", Val.dict [("value", Val.str "12px"), ("normalized", Val.int 12)])]
    "c" _ rfl

/-- Claim C10: the comparator is deterministic — its output does not
depend on anything but the two property maps (in particular not on the
unused component-name argument), and on success the issue list is the
concatenation, in iteration order over the reference map, of at most one
issue per reference key. -/
theorem comparator_deterministic_ordered (figma pr : List (String × Val)) (cn cn2 : String) :
    Index.compare_components figma pr cn = Index.compare_components figma pr cn2 ∧
    (∀ issues, Index.compare_components figma pr cn = .ok issues →
      ∃ perKey : List (List Issue), perKey.length = figma.length ∧
        issues = perKey.flatten ∧ ∀ l ∈ perKey, l.length ≤ 1) := by
  refine ⟨rfl, fun issues h => ?_⟩
  obtain ⟨perKey, hlen, hjoin, hprop⟩ := Index.compareAll_structure pr figma issues h
  refine ⟨perKey, hlen, hjoin, fun l hl => ?_⟩
  rcases hprop l hl with rfl | ⟨i, rfl, _⟩ <;> simp

/-- Witness for `comparator_deterministic_ordered` at a concrete run
with one reference key missing from the implementation. -/
theorem comparator_deterministic_ordered_witness :
    Index.compare_components [("padding", Val.dict [("normalized", Val.int 8)])] [] "a" =
      Index.compare_components [("padding", Val.dict [("normalized", Val.int 8)])] [] "b" ∧
    ∃ perKey : List (List Issue),
      perKey.length = ([("padding", Val.dict [("normalized", Val.int 8)])] :
        List (String × Val)).length ∧
      ([⟨"MINOR", "padding", Val.dict [("value", Val.dict [("normalized", Val.int 8)])],
         Val.dict [("missing", Val.bool true)], "Add missing property: padding",
         "MISSING_PROPERTY"⟩] : List Issue) = perKey.flatten ∧
      ∀ l ∈ perKey, l.length ≤ 1 :=
  ⟨(comparator_deterministic_ordered [("padding", Val.dict [("normalized", Val.int 8)])]
      [] "a" "b").1,
   (comparator_deterministic_ordered [("padding", Val.dict [("normalized", Val.int 8)])]
      [] "a" "b").2 _ rfl⟩
